import Mathlib

/-!
Verification of the telemux Telegram listener (src/telemux/listener.py).

Shallow embedding: text handling is modelled over `String` / `List Char`
(ASCII reading of Python's `str.strip`, `str.lower`, `\w`, `\s`), the
tmux subprocess boundary is modelled by a `MuxEnv` record of call
results, and `process_update` is embedded as a pure function producing a
trace of external effects together with the resulting listener state.
-/

namespace Telemux

/- ------------------------------------------------------------------ -/
/- Text helpers: ASCII models of the Python string operations used.    -/
/- ------------------------------------------------------------------ -/

/-- ASCII uppercase letter test (Python `str.lower` only changes these in
the ASCII reading used throughout this model). -/
def isUpperAscii (c : Char) : Bool := 65 ≤ c.toNat && c.toNat ≤ 90

/-- ASCII lowercasing of one character, model of Python `str.lower`. -/
def asciiLowerChar (c : Char) : Char :=
  if isUpperAscii c then Char.ofNat (c.toNat + 32) else c

/-- Model of Python `str.lower` (ASCII reading). -/
def pyLower (s : String) : String := ⟨s.data.map asciiLowerChar⟩

/-- Python whitespace class `\s` / characters removed by `str.strip()`:
space, tab, newline, carriage return, vertical tab, form feed. -/
def isPySpace (c : Char) : Bool :=
  c = ' ' || c = '\t' || c = '\n' || c = '\x0d' || c = '\x0b' || c = '\x0c'

/-- Strip `isPySpace` characters from both ends of a character list. -/
def stripChars (l : List Char) : List Char :=
  ((l.dropWhile isPySpace).reverse.dropWhile isPySpace).reverse

/-- Model of Python `str.strip()`. -/
def pyStrip (s : String) : String := ⟨stripChars s.data⟩

/-- Split a character list at every newline, keeping empty pieces, as
Python `str.split('\n')` does. -/
def splitNl : List Char → List (List Char)
  | [] => [[]]
  | c :: cs =>
    match splitNl cs with
    | [] => [[]]
    | r :: rs => if c = '\n' then [] :: r :: rs else (c :: r) :: rs

/-- Character class of the parser's regex word characters plus dash, in
the ASCII reading: letters, digits, underscore and dash. -/
def isWordChar (c : Char) : Bool :=
  c.isAlpha || c.isDigit || c = '_' || c = '-'

/- ------------------------------------------------------------------ -/
/- Message parser.                                                     -/
/- ------------------------------------------------------------------ -/

/-- Embedding of `re.match(r'^([\w-]+):\s*(.+)$', text, re.DOTALL)`
(listener.py lines 219-220).  Operational regex semantics: the first
group greedily takes the maximal leading run of word characters
(backtracking to a shorter run cannot help, because the character after
a shorter run is again a word character, never a colon); the run must be
non-empty and followed by a colon.  After the colon, the greedy
whitespace star takes the maximal whitespace run, but backtracks just
enough for the final one-or-more group to match at least one character
(DOTALL: any character): so if anything follows the whitespace run, the
payload is that remainder; if the post-colon text is non-empty but all
whitespace, the whitespace star gives back one character and the payload
is the final whitespace character; if the post-colon text is empty,
there is no match. -/
def pyMatchSessionMsg (text : String) : Option (String × String) :=
  if text.data.takeWhile isWordChar = [] then none
  else
    match text.data.dropWhile isWordChar with
    | [] => none
    | c :: tail =>
      if c = ':' then
        if tail.dropWhile isPySpace ≠ [] then
          some (⟨text.data.takeWhile isWordChar⟩, ⟨tail.dropWhile isPySpace⟩)
        else if tail ≠ [] then
          some (⟨text.data.takeWhile isWordChar⟩, ⟨[tail.getLastD ' ']⟩)
        else none
      else none

/-- Embedding of `parse_message_id` (listener.py lines 207-245): match the
explicit `session: message` pattern, else treat the whole text as the
payload; in both branches a leading `'!'` sets the bypass flag and is
stripped (exactly one). -/
def parse_message_id (text : String) : Option String × String × Bool :=
  match pyMatchSessionMsg text with
  | some (sessionName, content) =>
    if content.data.head? = some '!' then (some sessionName, ⟨content.data.tail⟩, true)
    else (some sessionName, content, false)
  | none =>
    if text.data.head? = some '!' then (none, ⟨text.data.tail⟩, true)
    else (none, text, false)

/-- Modelled from the spec's grammar (§4.3): the input matches
`IDENTIFIER ":" WHITESPACE* REST` with a one-or-more-character
identifier over letters, digits, underscore and dash, `WHITESPACE*` the
maximal whitespace run after the colon, and `REST` the remainder of the
text (possibly empty); a non-matching input yields
`(none, entire original text)`; in both branches a leading `'!'` on the
payload sets bypass and is stripped once. -/
def refSpecParse (text : String) : Option String × String × Bool :=
  let ident := text.data.takeWhile isWordChar
  let rest := text.data.dropWhile isWordChar
  let matched : Option (String × String) :=
    if ident = [] then none
    else
      match rest with
      | [] => none
      | c :: tail =>
        if c = ':' then some (⟨ident⟩, ⟨tail.dropWhile isPySpace⟩)
        else none
  match matched with
  | some (sessionName, content) =>
    if content.data.head? = some '!' then (some sessionName, ⟨content.data.tail⟩, true)
    else (some sessionName, content, false)
  | none =>
    if text.data.head? = some '!' then (none, ⟨text.data.tail⟩, true)
    else (none, text, false)

/-- The amended grammar match: as the spec grammar (leading identifier,
colon, maximal whitespace run, remainder as payload), but additionally
requiring a non-empty remainder: an input whose post-colon text is empty
is non-matching, and an input whose post-colon text is non-empty but all
whitespace matches with the final whitespace character as the payload
(the regex gives back exactly one whitespace character to its
one-or-more group). -/
def refAmendedMatch (text : String) : Option (String × String) :=
  if text.data.takeWhile isWordChar = [] then none
  else
    match text.data.dropWhile isWordChar with
    | [] => none
    | c :: tail =>
      if c = ':' then
        match tail.dropWhile isPySpace with
        | [] =>
          match tail with
          | [] => none
          | _ :: _ => some (⟨text.data.takeWhile isWordChar⟩, ⟨[tail.getLastD ' ']⟩)
        | b :: bs => some (⟨text.data.takeWhile isWordChar⟩, ⟨b :: bs⟩)
      else none

/-- The amended reference parser: `refAmendedMatch` followed by the
common bypass handling. -/
def refAmendedParse (text : String) : Option String × String × Bool :=
  match refAmendedMatch text with
  | some (sessionName, content) =>
    if content.data.head? = some '!' then (some sessionName, ⟨content.data.tail⟩, true)
    else (some sessionName, content, false)
  | none =>
    if text.data.head? = some '!' then (none, ⟨text.data.tail⟩, true)
    else (none, text, false)

/- ------------------------------------------------------------------ -/
/- Sanitizer and its shell model.                                      -/
/- ------------------------------------------------------------------ -/

/-- The single-quote character (written by code point to keep the file
free of quote-character literals). -/
def qChar : Char := Char.ofNat 39

/-- The backtick character (by code point). -/
def btChar : Char := Char.ofNat 96

/-- Characters `shlex.quote` treats as safe: the ASCII class of its
`_find_unsafe` regex (compiled with `re.ASCII`): word characters plus
the symbols at-sign, percent, plus, equals, colon, comma, dot, slash,
dash. -/
def shlexSafeChar (c : Char) : Bool :=
  c.isAlpha || c.isDigit ||
    c = '_' || c = '@' || c = '%' || c = '+' || c = '=' || c = ':' ||
    c = ',' || c = '.' || c = '/' || c = '-'

/-- Embedding of the single-quote replacement from `shlex.quote`: each
single quote becomes close-quote, double-quoted quote, reopen-quote. -/
def escQuote : List Char → List Char
  | [] => []
  | c :: cs =>
    if c = qChar then qChar :: '"' :: qChar :: '"' :: qChar :: escQuote cs
    else c :: escQuote cs

/-- Embedding of Python `shlex.quote` (used at listener.py line 373):
empty string becomes a pair of single quotes; a string of safe
characters is returned unchanged; otherwise the string is wrapped in
single quotes with embedded single quotes escaped. -/
def shlexQuote (s : String) : String :=
  if s.data = [] then ⟨[qChar, qChar]⟩
  else if s.data.all shlexSafeChar then s
  else ⟨qChar :: (escQuote s.data ++ [qChar])⟩

/-- The sanitizer of the spec (§4.7), as implemented at listener.py
lines 369-373: bypass returns the payload unchanged, otherwise
`shlex.quote` is applied. -/
def sanitize (payload : String) (bypass : Bool) : String :=
  if bypass then payload else shlexQuote payload

/-- Characters a POSIX shell gives special meaning to (or that break a
word) when unquoted in command position: whitespace, the control
operators for sequencing and pipes, command substitution dollar and
backtick, redirection and grouping, globbing, comment hash, tilde and
history expansion, brace expansion, the quoting characters. -/
def shSpecialChars : List Char :=
  [' ', '\t', '\n', '\x0d', '\x0b', '\x0c',
   ';', '&', '|', '$', btChar, '(', ')', '<', '>',
   '*', '?', '[', ']', '#', '~', '!', '\x7b', '\x7d',
   qChar, '"', '\\']

/-- Boolean form of membership in `shSpecialChars`. -/
def isShSpecial (c : Char) : Bool := decide (c ∈ shSpecialChars)

/-- Lexer mode of the shell-word evaluator. -/
inductive ShMode
  | norm
  | squote
  | dquote
deriving DecidableEq

/-- A single-word POSIX shell lexer: reads one word, interpreting
single quotes (everything literal until the closing quote), double
quotes (literal except dollar, backtick and backslash, which would be
given special meaning and therefore abort), and refusing any unquoted
special character.  A `some` result means the input lexes as exactly
one shell-literal token whose expansion is the returned text, with no
metacharacter given special meaning. -/
def evalShWord (m : ShMode) (acc : List Char) : List Char → Option (List Char)
  | [] => if m = ShMode.norm then some acc.reverse else none
  | c :: cs =>
    match m with
    | ShMode.norm =>
      if c = qChar then evalShWord ShMode.squote acc cs
      else if c = '"' then evalShWord ShMode.dquote acc cs
      else if isShSpecial c then none
      else evalShWord ShMode.norm (c :: acc) cs
    | ShMode.squote =>
      if c = qChar then evalShWord ShMode.norm acc cs
      else evalShWord ShMode.squote (c :: acc) cs
    | ShMode.dquote =>
      if c = '"' then evalShWord ShMode.norm acc cs
      else if c = '$' || c = btChar || c = '\\' then none
      else evalShWord ShMode.dquote (c :: acc) cs

/- ------------------------------------------------------------------ -/
/- Data model: updates, listener state, persisted state.               -/
/- ------------------------------------------------------------------ -/

/-- An inbound message: text, sender user id and chat id (the listener
reads both ids as strings). -/
structure Msg where
  text : String
  fromId : String
  chatId : String
deriving DecidableEq

/-- A Telegram update; entries without a message are ignored. -/
structure Update where
  update_id : Int
  message : Option Msg
deriving DecidableEq

/-- The in-memory listener state (after `load_state`, all three fields
are present). -/
structure ListenerState where
  last_update_id : Int
  last_active_session : Option String
  auto_capture : Bool
deriving DecidableEq

/-- A persisted state record: each field may be absent from the JSON
object (`none` at the outer layer).  `last_active_session` may also be
present and null (`some none`). -/
structure RawState where
  last_update_id : Option Int
  last_active_session : Option (Option String)
  auto_capture : Option Bool
deriving DecidableEq

/-- Embedding of `load_state` (listener.py lines 95-106): `none` models
a missing state file; a present record gets the two optional fields
filled with their defaults when absent. -/
def load_state : Option RawState → RawState
  | some st =>
    { st with
      last_active_session := some (st.last_active_session.getD none),
      auto_capture := some (st.auto_capture.getD false) }
  | none => ⟨some 0, some none, some false⟩

/-- Embedding of `save_state` (listener.py lines 109-113): writes the
full record as one JSON object, so afterwards the file exists with
exactly the saved fields (JSON round-trips these scalar fields
faithfully). -/
def save_state (st : RawState) : Option RawState := some st

/-- A valid state value: all three fields present, as is the case for
every state the listener itself ever saves. -/
def ValidRawState (st : RawState) : Prop :=
  st.last_update_id.isSome ∧ st.last_active_session.isSome ∧ st.auto_capture.isSome

/- ------------------------------------------------------------------ -/
/- Effects, subprocess results, tmux environment.                      -/
/- ------------------------------------------------------------------ -/

/-- The result of one `subprocess.run` of a tmux command: a completed
run with exit status zero, a completed run with non-zero exit status, or
a raised exception (carrying the text of `str(e)`). -/
inductive CallRes
  | ok (stdout : String) (stderr : String)
  | err (stdout : String) (stderr : String)
  | exn (msg : String)
deriving DecidableEq

/-- The behaviour of the external multiplexer during one
`process_update` run: each kind of tmux call is invoked at most once, so
one result per kind suffices. -/
structure MuxEnv where
  listSessionsRes : CallRes
  sendTextRes : CallRes
  sendEnterRes : CallRes
  capturePaneRes : CallRes
deriving DecidableEq

/-- One tmux invocation. -/
inductive TmuxCall
  | listSessions
  | sendKeys (target : String) (keys : String)
  | capturePane (target : String) (lines : Nat)
deriving DecidableEq

/-- An externally visible effect of the listener. -/
inductive Eff
  | tmux (c : TmuxCall)
  | sleep (seconds : Nat)
  | telegram (text : String)
  | saveState (st : ListenerState)
deriving DecidableEq

/-- The outcome of one `process_update` call: the effect trace, the
state after the call (the Python code mutates the dict in place), and
the message of an exception that escaped `process_update` (only possible
from the `capture` command path, which runs outside the try block; the
main loop catches it). -/
structure ProcResult where
  trace : List Eff
  state : ListenerState
  uncaught : Option String
deriving DecidableEq

/- ------------------------------------------------------------------ -/
/- The per-update pipeline.                                            -/
/- ------------------------------------------------------------------ -/

/-- The user-id gate (listener.py lines 283-286): reject only when a
user id is configured and differs (an empty configured id is falsy in
Python and modelled as `none`). -/
def userOk (userId : Option String) (fromId : String) : Bool :=
  match userId with
  | none => true
  | some uid => fromId = uid

/-- Active session list from the stdout of `tmux list-sessions`
(listener.py line 353): strip, split on newlines, drop empty lines. -/
def sessionsFrom (out : String) : List String :=
  ((splitNl (pyStrip out).data).map (fun l => (⟨l⟩ : String))).filter (fun s => s ≠ "")

/-- The reply-format hint appended to every delivered payload
(listener.py line 375). -/
def hintSuffix : String := "\n # Respond using: tg_agent \"your response\""

/-- The session-not-found reply (listener.py lines 359-361): it embeds
the comma-joined list of active session names. -/
def notFoundMsg (sessionName : String) (active : List String) : String :=
  "Session <b>" ++ sessionName ++ "</b> not found.\nActive: " ++ String.intercalate ", " active

/-- Truncation policy of `_send_capture` (listener.py lines 87-89):
strip the raw capture, and if the stripped text exceeds 3800 characters
keep the trailing 3800 and append the truncation marker. -/
def truncateCapture (raw : String) : String :=
  let output := pyStrip raw
  if 3800 < output.length then
    (⟨output.data.drop (output.data.length - 3800)⟩ : String) ++ "\n\n[...truncated]"
  else output

/-- Truncation in the bypass-capture branch (listener.py lines 437-439),
applied to the already-stripped output, with its longer marker. -/
def truncateCaptureBypass (stripped : String) : String :=
  if 3800 < stripped.length then
    (⟨stripped.data.drop (stripped.data.length - 3800)⟩ : String) ++
      "\n\n[...truncated to last 3800 characters]"
  else stripped

/-- Embedding of `_send_capture` (listener.py lines 81-92): capture the
last 100 lines of the session, send the (possibly truncated) output or a
failure notice.  The second component is the message of an exception
raised by the subprocess call, to be handled by the caller (caught when
inside the try block, propagated when outside). -/
def sendCapture (sessionName : String) (env : MuxEnv) : List Eff × Option String :=
  match env.capturePaneRes with
  | CallRes.ok out _ =>
    ([Eff.tmux (TmuxCall.capturePane sessionName 100),
      Eff.telegram ("<b>" ++ sessionName ++ ":</b>\n<pre>" ++ truncateCapture out ++ "</pre>")],
     none)
  | CallRes.err _ _ =>
    ([Eff.tmux (TmuxCall.capturePane sessionName 100), Eff.telegram "Capture failed"], none)
  | CallRes.exn m =>
    ([Eff.tmux (TmuxCall.capturePane sessionName 100)], some m)

/-- The bypass-mode post-delivery capture (listener.py lines 420-449),
which runs inside the try block: wait 2 seconds, capture 100 lines, and
report the output, a no-output notice, a capture failure, or the caught
exception. -/
def bypassCaptureEvs (sessionName : String) (env : MuxEnv) : List Eff :=
  Eff.sleep 2 :: Eff.tmux (TmuxCall.capturePane sessionName 100) ::
    match env.capturePaneRes with
    | CallRes.exn m => [Eff.telegram ("Error: " ++ m)]
    | CallRes.err _ _ =>
      [Eff.telegram ("Command executed in <b>" ++ sessionName ++ "</b> (capture failed)")]
    | CallRes.ok out _ =>
      if pyStrip out ≠ "" then
        [Eff.telegram ("<b>Output from " ++ sessionName ++ ":</b>\n<pre>" ++
          truncateCaptureBypass (pyStrip out) ++ "</pre>")]
      else [Eff.telegram ("Command executed in <b>" ++ sessionName ++ "</b> (no output)")]

/-- The two-phase delivery engine (listener.py lines 365-457), entered
after the target session was found in the live list: inject the
sanitized text plus the reply-format hint, wait 1 second, inject Enter;
a non-zero exit of either step reports a failure and stops without
updating `last_active_session`; an exception is caught by the enclosing
handler which reports it; on success the last active session is set and
the bypass capture, auto-capture, or plain confirmation branch runs. -/
def deliver (sessionName response : String) (bypass : Bool) (state : ListenerState)
    (env : MuxEnv) : ProcResult :=
  match env.sendTextRes with
  | CallRes.exn m =>
    ⟨[Eff.tmux (TmuxCall.sendKeys sessionName (sanitize response bypass ++ hintSuffix)),
      Eff.telegram ("Error: " ++ m)], state, none⟩
  | CallRes.err _ _ =>
    ⟨[Eff.tmux (TmuxCall.sendKeys sessionName (sanitize response bypass ++ hintSuffix)),
      Eff.telegram "Failed to deliver message to session"], state, none⟩
  | CallRes.ok _ _ =>
    match env.sendEnterRes with
    | CallRes.exn m =>
      ⟨[Eff.tmux (TmuxCall.sendKeys sessionName (sanitize response bypass ++ hintSuffix)),
        Eff.sleep 1, Eff.tmux (TmuxCall.sendKeys sessionName "C-m"),
        Eff.telegram ("Error: " ++ m)], state, none⟩
    | CallRes.err _ _ =>
      ⟨[Eff.tmux (TmuxCall.sendKeys sessionName (sanitize response bypass ++ hintSuffix)),
        Eff.sleep 1, Eff.tmux (TmuxCall.sendKeys sessionName "C-m"),
        Eff.telegram "Message sent but not executed"], state, none⟩
    | CallRes.ok _ _ =>
      if bypass then
        ⟨[Eff.tmux (TmuxCall.sendKeys sessionName (sanitize response bypass ++ hintSuffix)),
          Eff.sleep 1, Eff.tmux (TmuxCall.sendKeys sessionName "C-m")] ++
            bypassCaptureEvs sessionName env,
         { state with last_active_session := some sessionName }, none⟩
      else if ({ state with last_active_session := some sessionName } :
          ListenerState).auto_capture then
        ⟨[Eff.tmux (TmuxCall.sendKeys sessionName (sanitize response bypass ++ hintSuffix)),
          Eff.sleep 1, Eff.tmux (TmuxCall.sendKeys sessionName "C-m")] ++
            Eff.sleep 5 :: (sendCapture sessionName env).1 ++
            (match (sendCapture sessionName env).2 with
             | some m => [Eff.telegram ("Error: " ++ m)]
             | none => []),
         { state with last_active_session := some sessionName }, none⟩
      else
        ⟨[Eff.tmux (TmuxCall.sendKeys sessionName (sanitize response bypass ++ hintSuffix)),
          Eff.sleep 1, Eff.tmux (TmuxCall.sendKeys sessionName "C-m")] ++
            [Eff.telegram ("Message delivered to <b>" ++ sessionName ++ "</b>")],
         { state with last_active_session := some sessionName }, none⟩

/-- Session resolution against the live list (listener.py lines
337-363): a failing `list-sessions` means no sessions are running; a
list without the target produces the not-found reply; otherwise
delivery proceeds.  An exception from the call is caught by the
enclosing handler. -/
def resolveAndDeliver (sessionName response : String) (bypass : Bool)
    (state : ListenerState) (env : MuxEnv) : ProcResult :=
  match env.listSessionsRes with
  | CallRes.exn m =>
    ⟨[Eff.tmux TmuxCall.listSessions, Eff.telegram ("Error: " ++ m)], state, none⟩
  | CallRes.err _ _ =>
    ⟨[Eff.tmux TmuxCall.listSessions, Eff.telegram "No tmux sessions are running"],
     state, none⟩
  | CallRes.ok out _ =>
    if sessionName ∈ sessionsFrom out then
      ⟨Eff.tmux TmuxCall.listSessions ::
        (deliver sessionName response bypass state env).trace,
       (deliver sessionName response bypass state env).state,
       (deliver sessionName response bypass state env).uncaught⟩
    else
      ⟨[Eff.tmux TmuxCall.listSessions,
        Eff.telegram (notFoundMsg sessionName (sessionsFrom out))], state, none⟩

/-- Parsing and session resolution (listener.py lines 319-334): an
explicit session is used as is; an implicit message falls back to the
stored last active session (absent or empty, which are both falsy in
Python, produce the no-active-session reply). -/
def routeMessage (text : String) (state : ListenerState) (env : MuxEnv) : ProcResult :=
  match parse_message_id text with
  | (some sessionName, response, bypass) =>
    resolveAndDeliver sessionName response bypass state env
  | (none, response, bypass) =>
    match state.last_active_session with
    | some sessionName =>
      if sessionName = "" then
        ⟨[Eff.telegram "No active session. Reply with: session-name: message"], state, none⟩
      else resolveAndDeliver sessionName response bypass state env
    | none =>
      ⟨[Eff.telegram "No active session. Reply with: session-name: message"], state, none⟩

/-- The capture control commands (listener.py lines 291-317), recognized
on the trimmed lowercased text before parsing; anything else falls
through to message routing.  The on-demand capture runs outside the try
block, so its exception propagates. -/
def handleCommands (text : String) (state : ListenerState) (env : MuxEnv) : ProcResult :=
  if text = "capture" then
    match state.last_active_session with
    | some sessionName =>
      if sessionName = "" then
        ⟨[Eff.telegram "No active session. Send a message first."], state, none⟩
      else
        ⟨(sendCapture sessionName env).1, state, (sendCapture sessionName env).2⟩
    | none =>
      ⟨[Eff.telegram "No active session. Send a message first."], state, none⟩
  else if text = "capture on" then
    ⟨[Eff.saveState { state with auto_capture := true },
      Eff.telegram "Auto-capture ON. Will capture after each message."],
     { state with auto_capture := true }, none⟩
  else if text = "capture off" then
    ⟨[Eff.saveState { state with auto_capture := false }, Eff.telegram "Auto-capture OFF."],
     { state with auto_capture := false }, none⟩
  else if text = "capture status" then
    ⟨[Eff.telegram ("Auto-capture: " ++ (if state.auto_capture then "ON" else "OFF"))],
     state, none⟩
  else routeMessage text state env

/-- Embedding of `process_update` (listener.py lines 248-461): ignore
updates without a message, silently drop unauthorized senders (chat id
first, then the optional user id), trim and lowercase the text, then
run the command interpreter and the routing pipeline. -/
def process_update (u : Update) (chatId : String) (userId : Option String)
    (state : ListenerState) (env : MuxEnv) : ProcResult :=
  match u.message with
  | none => ⟨[], state, none⟩
  | some msg =>
    if msg.chatId = chatId then
      if userOk userId msg.fromId then
        handleCommands (pyLower (pyStrip msg.text)) state env
      else ⟨[], state, none⟩
    else ⟨[], state, none⟩

/- ------------------------------------------------------------------ -/
/- Trace observations.                                                 -/
/- ------------------------------------------------------------------ -/

/-- Is this effect a keystroke injection? -/
def isSendKeysEv : Eff → Bool
  | Eff.tmux (TmuxCall.sendKeys _ _) => true
  | _ => false

/-- Is this effect an outbound Telegram message? -/
def isTelegramEv : Eff → Bool
  | Eff.telegram _ => true
  | _ => false

/-- Is this effect any tmux invocation? -/
def isTmuxEv : Eff → Bool
  | Eff.tmux _ => true
  | _ => false

/-- The target session of a keystroke injection, if the effect is one. -/
def sendKeysTargetFn : Eff → Option String
  | Eff.tmux (TmuxCall.sendKeys t _) => some t
  | _ => none

/-- The target sessions of the keystroke injections in a trace. -/
def sendKeysTargets (tr : List Eff) : List String :=
  tr.filterMap sendKeysTargetFn

/-- The target and injected keys of a keystroke injection, if the
effect is one. -/
def sendKeysEvFn : Eff → Option (String × String)
  | Eff.tmux (TmuxCall.sendKeys t k) => some (t, k)
  | _ => none

/-- The (target, keys) pairs of the keystroke injections in a trace. -/
def sendKeysEvents (tr : List Eff) : List (String × String) :=
  tr.filterMap sendKeysEvFn

/-- A string without ASCII uppercase letters. -/
def noUpperB (s : String) : Bool := s.data.all fun c => !isUpperAscii c

/- ------------------------------------------------------------------ -/
/- The main polling loop's per-batch offset bookkeeping.               -/
/- ------------------------------------------------------------------ -/

/-- Observable events of the batch loop: starting the per-update
pipeline for an update id, and persisting the state. -/
inductive LoopEv
  | processEv (id : Int)
  | saveEv (st : ListenerState)
deriving DecidableEq

/-- Embedding of the per-batch loop of `main` (listener.py lines
496-508): for each update in order, run the per-update pipeline
(abstracted as `f`, whose outcome — success, early return, or a raised
exception caught at lines 502-503 — does not influence the offset
bookkeeping), then unconditionally set `last_update_id` to the update's
id plus one and save the state before the next update is started. -/
def runBatch (f : Update → ListenerState → ListenerState) :
    List Update → ListenerState → List LoopEv × ListenerState
  | [], st => ([], st)
  | u :: rest, st =>
    let st1 := f u st
    let st2 := { st1 with last_update_id := u.update_id + 1 }
    let r := runBatch f rest st2
    (LoopEv.processEv u.update_id :: LoopEv.saveEv st2 :: r.1, r.2)

/-- The sequence of offsets persisted by a batch trace, in order. -/
def persistedOffsets (evs : List LoopEv) : List Int :=
  evs.filterMap fun e =>
    match e with
    | LoopEv.saveEv st => some st.last_update_id
    | _ => none

/-- A batch trace consisting of process/save pairs where each save
stores the just-processed update's id plus one. -/
inductive PairedTrace : List LoopEv → Prop
  | nil : PairedTrace []
  | cons (i : Int) (st : ListenerState) (rest : List LoopEv) :
      st.last_update_id = i + 1 → PairedTrace rest →
      PairedTrace (LoopEv.processEv i :: LoopEv.saveEv st :: rest)

/- ------------------------------------------------------------------ -/
/- Helper lemmas.                                                      -/
/- ------------------------------------------------------------------ -/

/-- `Char.ofNat` on a scalar value below the surrogate range keeps its
numeric value. -/
theorem toNat_ofNat_valid (n : Nat) (h : n < 55296) : (Char.ofNat n).toNat = n := by
  unfold Char.ofNat
  rw [dif_pos (Or.inl h)]
  simp [Char.toNat, Char.ofNatAux, UInt32.toNat]

/-- ASCII lowering never yields an uppercase letter. -/
theorem lower_not_upper (c : Char) : isUpperAscii (asciiLowerChar c) = false := by
  unfold asciiLowerChar
  by_cases h : isUpperAscii c = true
  · rw [if_pos h]
    unfold isUpperAscii at h ⊢
    simp only [Bool.and_eq_true, decide_eq_true_eq] at h
    have hv : c.toNat + 32 < 55296 := by omega
    rw [toNat_ofNat_valid _ hv]
    simp only [Bool.and_eq_false_iff, decide_eq_false_iff_not]
    omega
  · rw [if_neg h]
    simpa using h

/-- Step equation: end of input. -/
theorem evalShWord_nil (m : ShMode) (acc : List Char) :
    evalShWord m acc [] = if m = ShMode.norm then some acc.reverse else none := rfl

/-- Step equation: normal mode. -/
theorem evalShWord_norm_cons (acc : List Char) (c : Char) (cs : List Char) :
    evalShWord ShMode.norm acc (c :: cs) =
      if c = qChar then evalShWord ShMode.squote acc cs
      else if c = '"' then evalShWord ShMode.dquote acc cs
      else if isShSpecial c then none
      else evalShWord ShMode.norm (c :: acc) cs := rfl

/-- Step equation: single-quote mode. -/
theorem evalShWord_squote_cons (acc : List Char) (c : Char) (cs : List Char) :
    evalShWord ShMode.squote acc (c :: cs) =
      if c = qChar then evalShWord ShMode.norm acc cs
      else evalShWord ShMode.squote (c :: acc) cs := rfl

/-- Step equation: double-quote mode. -/
theorem evalShWord_dquote_cons (acc : List Char) (c : Char) (cs : List Char) :
    evalShWord ShMode.dquote acc (c :: cs) =
      if c = '"' then evalShWord ShMode.norm acc cs
      else if c = '$' || c = btChar || c = '\\' then none
      else evalShWord ShMode.dquote (c :: acc) cs := rfl

/-- Every shell-special character is unsafe for `shlex.quote`. -/
theorem special_not_safe : ∀ c ∈ shSpecialChars, shlexSafeChar c = false := by decide

/-- A `shlex`-safe character is not shell-special. -/
theorem safe_not_special (c : Char) (h : shlexSafeChar c = true) :
    isShSpecial c = false := by
  unfold isShSpecial
  by_contra hc
  rw [Bool.not_eq_false, decide_eq_true_iff] at hc
  rw [special_not_safe c hc] at h
  exact Bool.false_ne_true h

/-- A `shlex`-safe character is not the single-quote character. -/
theorem safe_ne_quote (c : Char) (h : shlexSafeChar c = true) : c ≠ qChar := by
  intro hq
  subst hq
  exact Bool.false_ne_true ((by decide : shlexSafeChar qChar = false) ▸ h)

/-- A `shlex`-safe character is not the double-quote character. -/
theorem safe_ne_dquote (c : Char) (h : shlexSafeChar c = true) : c ≠ '"' := by
  intro hq
  subst hq
  exact Bool.false_ne_true ((by decide : shlexSafeChar '"' = false) ▸ h)

/-- A string of `shlex`-safe characters lexes, in normal mode, to
itself appended to the accumulator. -/
theorem evalShWord_safe (l : List Char) :
    ∀ acc, l.all shlexSafeChar = true →
      evalShWord ShMode.norm acc l = some (acc.reverse ++ l) := by
  induction l with
  | nil => intro acc _; simp [evalShWord_nil]
  | cons c cs ih =>
    intro acc hall
    rw [List.all_cons, Bool.and_eq_true] at hall
    obtain ⟨hc, hcs⟩ := hall
    rw [evalShWord_norm_cons, if_neg (safe_ne_quote c hc),
      if_neg (safe_ne_dquote c hc), safe_not_special c hc]
    simp only [Bool.false_eq_true, if_false]
    rw [ih (c :: acc) hcs]
    simp

/-- Scanning the quote-escaped form of `l` followed by a closing single
quote, starting inside single quotes, recovers exactly `l`. -/
theorem evalShWord_escQuote (l : List Char) :
    ∀ acc, evalShWord ShMode.squote acc (escQuote l ++ [qChar]) =
      some (acc.reverse ++ l) := by
  induction l with
  | nil =>
    intro acc
    simp [escQuote, evalShWord_squote_cons, evalShWord_nil]
  | cons c cs ih =>
    intro acc
    by_cases hc : c = qChar
    · subst hc
      rw [escQuote, if_pos rfl]
      simp only [List.cons_append]
      rw [evalShWord_squote_cons, if_pos rfl]
      rw [evalShWord_norm_cons, if_neg (by decide), if_pos rfl]
      rw [evalShWord_dquote_cons, if_neg (by decide),
        if_neg (by simp only [show (qChar = '$' || qChar = btChar ||
          qChar = '\\') = false by decide]; exact Bool.false_ne_true)]
      rw [evalShWord_dquote_cons, if_pos rfl]
      rw [evalShWord_norm_cons, if_pos rfl]
      rw [ih (qChar :: acc)]
      simp
    · rw [escQuote, if_neg hc]
      simp only [List.cons_append]
      rw [evalShWord_squote_cons, if_neg hc]
      rw [ih (c :: acc)]
      simp

/- Parser sanity checks against the repository's unit tests. -/
example : parse_message_id "proj-1: deploy now" = (some "proj-1", "deploy now", false) := by decide
example : parse_message_id "proj-1: !rm -rf /tmp" = (some "proj-1", "rm -rf /tmp", true) := by decide
example : parse_message_id "hello" = (none, "hello", false) := by decide
example : parse_message_id ": x" = (none, ": x", false) := by decide
example : parse_message_id "session: message with: colons" = (some "session", "message with: colons", false) := by decide
example : parse_message_id "session:    message" = (some "session", "message", false) := by decide
example : parse_message_id "!ls -la" = (none, "ls -la", true) := by decide
example : parse_message_id "session-name: " = (some "session-name", " ", false) := by decide
example : parse_message_id "s@n: x" = (none, "s@n: x", false) := by decide
example : parse_message_id "agent-1: First line\nSecond line" = (some "agent-1", "First line\nSecond line", false) := by decide

/- ------------------------------------------------------------------ -/
/- Claim C3.                                                           -/
/- ------------------------------------------------------------------ -/

/-- C3: for every payload, non-bypass sanitization produces a single
shell-literal token that, interpreted by a shell, evaluates back to
exactly the original payload with no metacharacter given special
meaning; with bypass the payload is returned unchanged. -/
theorem sanitize_shell_roundtrip (s : String) :
    evalShWord ShMode.norm [] (sanitize s false).data = some s.data ∧
    sanitize s true = s := by
  constructor
  · show evalShWord ShMode.norm [] (shlexQuote s).data = some s.data
    unfold shlexQuote
    by_cases h0 : s.data = []
    · rw [if_pos h0, h0]
      decide
    · rw [if_neg h0]
      by_cases h1 : s.data.all shlexSafeChar
      · rw [if_pos h1]
        simpa using evalShWord_safe s.data [] h1
      · rw [if_neg h1]
        show evalShWord ShMode.norm [] (qChar :: (escQuote s.data ++ [qChar])) = some s.data
        rw [evalShWord_norm_cons, if_pos rfl, evalShWord_escQuote s.data []]
        simp
  · rfl

/-- C3 witness: a payload full of shell metacharacters round-trips
through non-bypass sanitization and is untouched under bypass. -/
theorem sanitize_shell_roundtrip_witness :
    evalShWord ShMode.norm [] (sanitize "echo $(pwd); ls | wc" false).data =
      some ("echo $(pwd); ls | wc" : String).data ∧
    sanitize "echo $(pwd); ls | wc" true = "echo $(pwd); ls | wc" :=
  sanitize_shell_roundtrip "echo $(pwd); ls | wc"

/- ------------------------------------------------------------------ -/
/- Claim C7.                                                           -/
/- ------------------------------------------------------------------ -/

/-- The regex match coincides with the amended grammar match. -/
theorem pyMatch_eq_refAmendedMatch (t : String) :
    pyMatchSessionMsg t = refAmendedMatch t := by
  unfold pyMatchSessionMsg refAmendedMatch
  by_cases hid : t.data.takeWhile isWordChar = []
  · simp [hid]
  · simp only [hid, if_neg, if_false]
    cases hr : t.data.dropWhile isWordChar with
    | nil => rfl
    | cons c tail =>
      by_cases hc : c = ':'
      · simp only [hc, if_pos rfl]
        cases hb : tail.dropWhile isPySpace with
        | nil =>
          cases tail with
          | nil => simp [hb]
          | cons x xs => simp [hb]
        | cons b bs => simp [hb]
      · simp [hc]

/-- C7 counterexample: on the input consisting of an identifier followed
by a bare colon, the grammar-defined reference function matches with an
empty rest and returns the identifier, while `parse_message_id` treats
the input as non-matching and returns the whole text — so the two
functions differ. -/
theorem parse_ne_refSpec_at_bare_colon :
    parse_message_id "s:" = (none, "s:", false) ∧
    refSpecParse "s:" = (some "s", "", false) ∧
    parse_message_id "s:" ≠ refSpecParse "s:" := by decide

/-- C7 (amended): `parse_message_id` equals the grammar-defined
reference function amended to require a non-empty rest — an input whose
post-colon text is empty is non-matching (the whole text becomes the
payload of an implicit route), and an input whose post-colon text is
non-empty but all whitespace matches with the final whitespace character
as the payload; the bypass handling is as the claim states it. -/
theorem parse_message_id_eq_refAmended (t : String) :
    parse_message_id t = refAmendedParse t := by
  unfold parse_message_id refAmendedParse
  rw [pyMatch_eq_refAmendedMatch]

/-- C7 witness: the parser and the amended reference agree on a
concrete explicit-session input. -/
theorem parse_message_id_eq_refAmended_witness :
    parse_message_id "proj-1: deploy now" = refAmendedParse "proj-1: deploy now" :=
  parse_message_id_eq_refAmended "proj-1: deploy now"

/- ------------------------------------------------------------------ -/
/- Claim C9.                                                           -/
/- ------------------------------------------------------------------ -/

/-- C9: loading with no persisted file yields the default state
(offset 0, no last active session, auto-capture off); a persisted
record missing `last_active_session` or `auto_capture` gets that field
filled with its default (and the offset field is never altered); and
saving a valid state and loading it back yields the identical state. -/
theorem load_save_state_contract :
    load_state none = ⟨some 0, some none, some false⟩ ∧
    (∀ st : RawState, st.last_active_session = none →
      (load_state (some st)).last_active_session = some none) ∧
    (∀ st : RawState, st.auto_capture = none →
      (load_state (some st)).auto_capture = some false) ∧
    (∀ st : RawState, (load_state (some st)).last_update_id = st.last_update_id) ∧
    (∀ st : RawState, ValidRawState st → load_state (save_state st) = st) := by
  refine ⟨rfl, ?_, ?_, ?_, ?_⟩
  · intro st h
    simp [load_state, h]
  · intro st h
    simp [load_state, h]
  · intro st
    rfl
  · rintro ⟨lu, las, ac⟩ ⟨h1, h2, h3⟩
    cases las with
    | none => simp at h2
    | some v =>
      cases ac with
      | none => simp at h3
      | some b => simp [save_state, load_state]

/-- C9 witness: a concrete valid state round-trips, and a record
missing its optional fields is filled with the defaults. -/
theorem load_save_state_contract_witness :
    load_state (save_state ⟨some 5, some (some "build"), some true⟩) =
      ⟨some 5, some (some "build"), some true⟩ ∧
    (load_state (some ⟨some 9, none, none⟩)).last_active_session = some none ∧
    (load_state (some ⟨some 9, none, none⟩)).auto_capture = some false :=
  ⟨load_save_state_contract.2.2.2.2 _ ⟨rfl, rfl, rfl⟩,
   load_save_state_contract.2.1 _ rfl,
   load_save_state_contract.2.2.1 _ rfl⟩

/- ------------------------------------------------------------------ -/
/- Claim C10.                                                          -/
/- ------------------------------------------------------------------ -/

/-- C10 counterexample: a three-character raw capture (at most 3800
characters) is not returned unmodified — the code strips surrounding
whitespace first. -/
theorem truncate_strips_short_capture :
    truncateCapture " x " = "x" ∧ (" x " : String).length ≤ 3800 ∧
    truncateCapture " x " ≠ " x " := by decide

/-- C10 (amended): the capture retrieves the last 100 lines; the raw
text is first stripped of surrounding whitespace, and then: a stripped
text of at most 3800 characters is returned unmodified, while a longer
one is cut to its trailing 3800 characters with the truncation marker
appended. -/
theorem capture_truncation_policy :
    (∀ sessionName env,
      (sendCapture sessionName env).1.head? =
        some (Eff.tmux (TmuxCall.capturePane sessionName 100))) ∧
    (∀ raw : String, (pyStrip raw).length ≤ 3800 → truncateCapture raw = pyStrip raw) ∧
    (∀ raw : String, 3800 < (pyStrip raw).length →
      truncateCapture raw =
        (⟨(pyStrip raw).data.drop ((pyStrip raw).data.length - 3800)⟩ : String) ++
          "\n\n[...truncated]") := by
  refine ⟨?_, ?_, ?_⟩
  · intro sessionName env
    cases h : env.capturePaneRes <;> simp [sendCapture, h]
  · intro raw h
    show (if 3800 < (pyStrip raw).length then _ else pyStrip raw) = pyStrip raw
    rw [if_neg (Nat.not_lt.mpr h)]
  · intro raw h
    show (if 3800 < (pyStrip raw).length then _ else pyStrip raw) = _
    rw [if_pos h]

/-- Characters that are not stripped survive `dropWhile`. -/
theorem dropWhile_replicate_nonspace (n : Nat) (c : Char) (h : isPySpace c = false) :
    List.dropWhile isPySpace (List.replicate n c) = List.replicate n c := by
  induction n with
  | zero => rfl
  | succ n ih => simp [List.replicate_succ, List.dropWhile_cons, h, ih]

/-- Stripping a run of a non-space character is the identity. -/
theorem stripChars_replicate_nonspace (n : Nat) (c : Char) (h : isPySpace c = false) :
    stripChars (List.replicate n c) = List.replicate n c := by
  unfold stripChars
  rw [dropWhile_replicate_nonspace n c h, List.reverse_replicate,
    dropWhile_replicate_nonspace n c h, List.reverse_replicate]

/-- C10 witness: a 3801-character capture is truncated to its trailing
3800 characters plus the marker. -/
theorem capture_truncation_policy_witness :
    3800 < (pyStrip (⟨List.replicate 3801 'a'⟩ : String)).length ∧
    truncateCapture (⟨List.replicate 3801 'a'⟩ : String) =
      (⟨(pyStrip (⟨List.replicate 3801 'a'⟩ : String)).data.drop
        ((pyStrip (⟨List.replicate 3801 'a'⟩ : String)).data.length - 3800)⟩ : String) ++
        "\n\n[...truncated]" := by
  have hs : pyStrip (⟨List.replicate 3801 'a'⟩ : String) = ⟨List.replicate 3801 'a'⟩ := by
    unfold pyStrip
    rw [show (⟨List.replicate 3801 'a'⟩ : String).data = List.replicate 3801 'a' from rfl,
      stripChars_replicate_nonspace 3801 'a' (by decide)]
  have hl : 3800 < (pyStrip (⟨List.replicate 3801 'a'⟩ : String)).length := by
    have h1 : (pyStrip (⟨List.replicate 3801 'a'⟩ : String)).length = 3801 := by
      rw [hs]
      show (List.replicate 3801 'a').length = 3801
      rw [List.length_replicate]
    omega
  exact ⟨hl, capture_truncation_policy.2.2 _ hl⟩

/- ------------------------------------------------------------------ -/
/- Claim C1.                                                           -/
/- ------------------------------------------------------------------ -/

/-- C1 failing input: an authorized update addressing the absent session
`ghost` while sessions `a` and `b` are live produces a not-found reply
that embeds the live session names (and no count), contradicting the
count-only reply asserted by the spec and by the repository's own unit
test. -/
theorem notFound_reply_discloses_names :
    (process_update ⟨1, some ⟨"ghost: hi", "42", "42"⟩⟩ "42" none ⟨0, none, false⟩
      ⟨CallRes.ok "a\nb" "", CallRes.ok "" "", CallRes.ok "" "", CallRes.ok "" ""⟩).trace =
      [Eff.tmux TmuxCall.listSessions,
       Eff.telegram "Session <b>ghost</b> not found.\nActive: a, b"] := by decide

/- ------------------------------------------------------------------ -/
/- Claim C5.                                                           -/
/- ------------------------------------------------------------------ -/

/-- C5: an update whose sender chat id differs from the configured one
(or, when a user id is configured, whose sender user id differs from it)
produces no effects at all — no multiplexer invocation, no outbound
message, no state change — whatever the message text. -/
theorem unauthorized_update_no_side_effects (u : Update) (msg : Msg) (chatId : String)
    (userId : Option String) (state : ListenerState) (env : MuxEnv)
    (hmsg : u.message = some msg)
    (h : msg.chatId ≠ chatId ∨ userOk userId msg.fromId = false) :
    process_update u chatId userId state env = ⟨[], state, none⟩ := by
  unfold process_update
  rw [hmsg]
  show (if msg.chatId = chatId then
      (if userOk userId msg.fromId = true then
        handleCommands (pyLower (pyStrip msg.text)) state env
      else ⟨[], state, none⟩)
    else ⟨[], state, none⟩) = ⟨[], state, none⟩
  rcases h with h | h
  · rw [if_neg h]
  · by_cases hc : msg.chatId = chatId
    · rw [if_pos hc, h]
      simp
    · rw [if_neg hc]

/-- C5 witness: a concrete update from a wrong chat id carrying a
malicious payload produces the empty trace. -/
theorem unauthorized_update_no_side_effects_witness :
    process_update ⟨7, some ⟨"build: rm -rf /", "9", "666"⟩⟩ "42" none ⟨0, none, false⟩
      ⟨CallRes.ok "build" "", CallRes.ok "" "", CallRes.ok "" "", CallRes.ok "" ""⟩ =
      ⟨[], ⟨0, none, false⟩, none⟩ :=
  unauthorized_update_no_side_effects _ _ _ _ _ _ rfl (Or.inl (by decide))

/- ------------------------------------------------------------------ -/
/- Claim C6.                                                           -/
/- ------------------------------------------------------------------ -/

/-- C6: if either delivery step completes with non-zero exit status or
raises, the whole delivery is a single terminal failure: exactly one
failure report goes out, the state (in particular `last_active_session`)
is unchanged, and no step is retried (at most the two injections ever
run). -/
theorem delivery_step_failure_is_terminal (s response : String) (bypass : Bool)
    (state : ListenerState) (env : MuxEnv)
    (h : (∀ o e, env.sendTextRes ≠ CallRes.ok o e) ∨
      ((∃ o e, env.sendTextRes = CallRes.ok o e) ∧
        ∀ o e, env.sendEnterRes ≠ CallRes.ok o e)) :
    (deliver s response bypass state env).state = state ∧
    ((deliver s response bypass state env).trace.filter isTelegramEv).length = 1 ∧
    ((deliver s response bypass state env).trace.filter isSendKeysEv).length ≤ 2 := by
  cases ht : env.sendTextRes with
  | exn m =>
    simp [deliver, ht, isTelegramEv, isSendKeysEv]
  | err o e =>
    simp [deliver, ht, isTelegramEv, isSendKeysEv]
  | ok o e =>
    rcases h with h | ⟨_, h⟩
    · exact absurd ht (h o e)
    · cases he : env.sendEnterRes with
      | exn m =>
        simp [deliver, ht, he, isTelegramEv, isSendKeysEv]
      | err o2 e2 =>
        simp [deliver, ht, he, isTelegramEv, isSendKeysEv]
      | ok o2 e2 =>
        exact absurd he (h o2 e2)

/-- C6 witness: a concrete delivery whose Enter injection exits non-zero
keeps the state and reports exactly one failure. -/
theorem delivery_step_failure_is_terminal_witness :
    (deliver "build" "hi" false ⟨3, some "old", false⟩
      ⟨CallRes.ok "" "", CallRes.ok "" "", CallRes.err "" "boom", CallRes.ok "" ""⟩).state =
      ⟨3, some "old", false⟩ ∧
    ((deliver "build" "hi" false ⟨3, some "old", false⟩
      ⟨CallRes.ok "" "", CallRes.ok "" "", CallRes.err "" "boom", CallRes.ok "" ""⟩).trace.filter
        isTelegramEv).length = 1 ∧
    ((deliver "build" "hi" false ⟨3, some "old", false⟩
      ⟨CallRes.ok "" "", CallRes.ok "" "", CallRes.err "" "boom", CallRes.ok "" ""⟩).trace.filter
        isSendKeysEv).length ≤ 2 :=
  delivery_step_failure_is_terminal _ _ _ _ _
    (Or.inr ⟨⟨"", "", rfl⟩, fun o e hh => by cases hh⟩)

/- ------------------------------------------------------------------ -/
/- Claim C4.                                                           -/
/- ------------------------------------------------------------------ -/

/-- C4: for every update of a polled batch — whatever the per-update
pipeline `f` did (success, early return, or a caught exception) — the
stored offset is set to that update's id plus one and persisted before
the next update is started (the trace is a sequence of process/save
pairs and the persisted offsets are exactly the ids plus one, in
order); and for a monotonic batch whose ids are not below the current
cursor minus one, the offset is non-decreasing across the whole run. -/
theorem batch_offset_persistence (f : Update → ListenerState → ListenerState)
    (ups : List Update) (st : ListenerState)
    (hsorted : List.Pairwise (fun a b => a.update_id ≤ b.update_id) ups)
    (hinit : ∀ u ∈ ups, st.last_update_id ≤ u.update_id + 1) :
    PairedTrace (runBatch f ups st).1 ∧
    persistedOffsets (runBatch f ups st).1 = ups.map (fun u => u.update_id + 1) ∧
    List.Chain' (· ≤ ·) (st.last_update_id :: persistedOffsets (runBatch f ups st).1) := by
  induction ups generalizing st with
  | nil =>
    exact ⟨PairedTrace.nil, rfl, List.chain'_singleton _⟩
  | cons u rest ih =>
    rw [List.pairwise_cons] at hsorted
    obtain ⟨hu, hrest⟩ := hsorted
    have hinit2 : ∀ v ∈ rest,
        ({ f u st with last_update_id := u.update_id + 1 } : ListenerState).last_update_id ≤
          v.update_id + 1 := by
      intro v hv
      have := hu v hv
      show u.update_id + 1 ≤ v.update_id + 1
      omega
    obtain ⟨ih1, ih2, ih3⟩ :=
      ih ({ f u st with last_update_id := u.update_id + 1 }) hrest hinit2
    refine ⟨?_, ?_, ?_⟩
    · show PairedTrace (LoopEv.processEv u.update_id ::
        LoopEv.saveEv { f u st with last_update_id := u.update_id + 1 } ::
        (runBatch f rest _).1)
      exact PairedTrace.cons _ _ _ rfl ih1
    · show persistedOffsets (LoopEv.processEv u.update_id ::
        LoopEv.saveEv { f u st with last_update_id := u.update_id + 1 } ::
        (runBatch f rest _).1) = _
      rw [persistedOffsets, List.filterMap_cons, List.filterMap_cons]
      simp only [List.map_cons]
      rw [← persistedOffsets, ih2]
    · show List.Chain' (· ≤ ·) (st.last_update_id :: persistedOffsets
        (LoopEv.processEv u.update_id ::
          LoopEv.saveEv { f u st with last_update_id := u.update_id + 1 } ::
          (runBatch f rest _).1))
      rw [persistedOffsets, List.filterMap_cons, List.filterMap_cons, ← persistedOffsets]
      rw [List.chain'_cons]
      exact ⟨hinit u (List.mem_cons_self u rest), ih3⟩

/-- C4 witness: a concrete two-update batch starting from offset 3
persists offsets 6 then 8, in process/save pairs, non-decreasingly. -/
theorem batch_offset_persistence_witness :
    PairedTrace (runBatch (fun _ s => s) [⟨5, none⟩, ⟨7, none⟩] ⟨3, none, false⟩).1 ∧
    persistedOffsets (runBatch (fun _ s => s) [⟨5, none⟩, ⟨7, none⟩] ⟨3, none, false⟩).1 =
      [6, 8] ∧
    List.Chain' (· ≤ ·) ((3 : Int) :: persistedOffsets
      (runBatch (fun _ s => s) [⟨5, none⟩, ⟨7, none⟩] ⟨3, none, false⟩).1) := by
  have h := batch_offset_persistence (fun _ s => s) [⟨5, none⟩, ⟨7, none⟩] ⟨3, none, false⟩
    (by decide) (by decide)
  exact ⟨h.1, h.2.1, h.2.2⟩

/- ------------------------------------------------------------------ -/
/- Claim C2.                                                           -/
/- ------------------------------------------------------------------ -/

/-- A text that parses to an explicit session is none of the four
capture commands (they contain no colon). -/
theorem parse_explicit_not_command (t s payload : String) (b : Bool)
    (hparse : parse_message_id t = (some s, payload, b)) :
    t ≠ "capture" ∧ t ≠ "capture on" ∧ t ≠ "capture off" ∧ t ≠ "capture status" := by
  refine ⟨?_, ?_, ?_, ?_⟩ <;>
    (intro h
     rw [h] at hparse
     simp only [show parse_message_id "capture" = (none, "capture", false) from by decide,
       show parse_message_id "capture on" = (none, "capture on", false) from by decide,
       show parse_message_id "capture off" = (none, "capture off", false) from by decide,
       show parse_message_id "capture status" = (none, "capture status", false) from by decide,
       Prod.mk.injEq] at hparse
     exact Option.noConfusion hparse.1)

/-- C2: for an authorized update whose (trimmed, lowercased) text parses
to an explicit, non-bypass target session present in the live list,
with both injections succeeding and auto-capture off, the pipeline runs
the session query and then exactly two keystroke injections in order —
the sanitized payload with the reply-format hint, then Enter — with the
fixed 1-second delay between them, sets `last_active_session` to the
target, and sends exactly one delivered-confirmation naming it. -/
theorem explicit_delivery_happy_path (u : Update) (msg : Msg) (chatId : String)
    (userId : Option String) (state : ListenerState) (env : MuxEnv)
    (s payload out e0 o1 e1 o2 e2 : String)
    (hmsg : u.message = some msg)
    (hchat : msg.chatId = chatId)
    (huser : userOk userId msg.fromId = true)
    (hparse : parse_message_id (pyLower (pyStrip msg.text)) = (some s, payload, false))
    (hlist : env.listSessionsRes = CallRes.ok out e0)
    (hmem : s ∈ sessionsFrom out)
    (hst : env.sendTextRes = CallRes.ok o1 e1)
    (hse : env.sendEnterRes = CallRes.ok o2 e2)
    (hac : state.auto_capture = false) :
    (process_update u chatId userId state env).trace =
      [Eff.tmux TmuxCall.listSessions,
       Eff.tmux (TmuxCall.sendKeys s (sanitize payload false ++ hintSuffix)),
       Eff.sleep 1,
       Eff.tmux (TmuxCall.sendKeys s "C-m"),
       Eff.telegram ("Message delivered to <b>" ++ s ++ "</b>")] ∧
    (process_update u chatId userId state env).state.last_active_session = some s ∧
    ((process_update u chatId userId state env).trace.filter isSendKeysEv) =
      [Eff.tmux (TmuxCall.sendKeys s (sanitize payload false ++ hintSuffix)),
       Eff.tmux (TmuxCall.sendKeys s "C-m")] ∧
    ((process_update u chatId userId state env).trace.filter isTelegramEv) =
      [Eff.telegram ("Message delivered to <b>" ++ s ++ "</b>")] := by
  obtain ⟨hc1, hc2, hc3, hc4⟩ := parse_explicit_not_command _ _ _ _ hparse
  have keyd : deliver s payload false state env =
      ⟨[Eff.tmux (TmuxCall.sendKeys s (sanitize payload false ++ hintSuffix)),
        Eff.sleep 1, Eff.tmux (TmuxCall.sendKeys s "C-m"),
        Eff.telegram ("Message delivered to <b>" ++ s ++ "</b>")],
       { state with last_active_session := some s }, none⟩ := by
    unfold deliver
    rw [hst, hse]
    show (if ({ state with last_active_session := some s } : ListenerState).auto_capture = true
        then _ else _) = _
    have : ({ state with last_active_session := some s } : ListenerState).auto_capture = false := hac
    rw [this]
    simp
  have key : process_update u chatId userId state env =
      ⟨Eff.tmux TmuxCall.listSessions :: (deliver s payload false state env).trace,
       (deliver s payload false state env).state,
       (deliver s payload false state env).uncaught⟩ := by
    unfold process_update
    rw [hmsg]
    show (if msg.chatId = chatId then
        (if userOk userId msg.fromId = true then
          handleCommands (pyLower (pyStrip msg.text)) state env
        else ⟨[], state, none⟩)
      else ⟨[], state, none⟩) = _
    rw [if_pos hchat, if_pos huser]
    unfold handleCommands
    rw [if_neg hc1, if_neg hc2, if_neg hc3, if_neg hc4]
    unfold routeMessage
    rw [hparse]
    show resolveAndDeliver s payload false state env = _
    unfold resolveAndDeliver
    rw [hlist]
    show (if s ∈ sessionsFrom out then _ else _) = _
    rw [if_pos hmem]
  rw [key, keyd]
  refine ⟨rfl, rfl, ?_, ?_⟩ <;> simp [isSendKeysEv, isTelegramEv, List.filter]

/-- C2 witness: the spec's end-to-end scenario — text
`"build: go build ./..."` with live sessions `build` and `other` —
yields exactly the query, the two ordered injections separated by the
1-second delay, the state update, and one delivered-confirmation. -/
theorem explicit_delivery_happy_path_witness :
    (process_update ⟨1, some ⟨"build: go build ./...", "7", "42"⟩⟩ "42" none ⟨0, none, false⟩
      ⟨CallRes.ok "build\nother" "", CallRes.ok "" "", CallRes.ok "" "", CallRes.ok "" ""⟩).trace =
      [Eff.tmux TmuxCall.listSessions,
       Eff.tmux (TmuxCall.sendKeys "build" (sanitize "go build ./..." false ++ hintSuffix)),
       Eff.sleep 1,
       Eff.tmux (TmuxCall.sendKeys "build" "C-m"),
       Eff.telegram ("Message delivered to <b>" ++ "build" ++ "</b>")] ∧
    (process_update ⟨1, some ⟨"build: go build ./...", "7", "42"⟩⟩ "42" none ⟨0, none, false⟩
      ⟨CallRes.ok "build\nother" "", CallRes.ok "" "", CallRes.ok "" "",
        CallRes.ok "" ""⟩).state.last_active_session = some "build" := by
  have h := explicit_delivery_happy_path ⟨1, some ⟨"build: go build ./...", "7", "42"⟩⟩
    ⟨"build: go build ./...", "7", "42"⟩ "42" none ⟨0, none, false⟩
    ⟨CallRes.ok "build\nother" "", CallRes.ok "" "", CallRes.ok "" "", CallRes.ok "" ""⟩
    "build" "go build ./..." "build\nother" "" "" "" "" ""
    rfl rfl rfl (by decide) rfl (by decide) rfl rfl rfl
  exact ⟨h.1, h.2.1⟩

/- ------------------------------------------------------------------ -/
/- Claim C8.                                                           -/
/- ------------------------------------------------------------------ -/

/-- Lowercased text contains no uppercase ASCII letters. -/
theorem noUpperB_pyLower (s : String) : noUpperB (pyLower s) = true := by
  unfold noUpperB pyLower
  show (s.data.map asciiLowerChar).all (fun c => !isUpperAscii c) = true
  rw [List.all_map]
  rw [List.all_eq_true]
  intro c _
  simp [Function.comp, lower_not_upper]

/-- A string whose characters all occur in a string without uppercase
letters itself has no uppercase letters. -/
theorem noUpperB_of_subset (s t : String) (ht : noUpperB t = true)
    (h : ∀ c ∈ s.data, c ∈ t.data) : noUpperB s = true := by
  unfold noUpperB at ht ⊢
  rw [List.all_eq_true] at ht ⊢
  intro c hc
  exact ht c (h c hc)

/-- A matched explicit session name consists of characters of the
input text. -/
theorem pyMatch_session_chars (t sid content : String)
    (h : pyMatchSessionMsg t = some (sid, content)) :
    ∀ c ∈ sid.data, c ∈ t.data := by
  unfold pyMatchSessionMsg at h
  split at h
  · exact absurd h (by simp)
  · split at h
    · exact absurd h (by simp)
    · split at h
      · split at h
        · simp only [Option.some.injEq, Prod.mk.injEq] at h
          obtain ⟨h1, _⟩ := h
          intro c hc
          rw [← h1] at hc
          exact (List.takeWhile_sublist isWordChar).mem hc
        · split at h
          · simp only [Option.some.injEq, Prod.mk.injEq] at h
            obtain ⟨h1, _⟩ := h
            intro c hc
            rw [← h1] at hc
            exact (List.takeWhile_sublist isWordChar).mem hc
          · exact absurd h (by simp)
      · exact absurd h (by simp)

/-- An explicitly parsed session name consists of characters of the
input text. -/
theorem parse_session_chars (t s p : String) (b : Bool)
    (h : parse_message_id t = (some s, p, b)) :
    ∀ c ∈ s.data, c ∈ t.data := by
  unfold parse_message_id at h
  split at h
  · rename_i sid content heq
    split at h
    · simp only [Prod.mk.injEq, Option.some.injEq] at h
      obtain ⟨h1, _⟩ := h
      subst h1
      exact pyMatch_session_chars t _ content heq
    · simp only [Prod.mk.injEq, Option.some.injEq] at h
      obtain ⟨h1, _⟩ := h
      subst h1
      exact pyMatch_session_chars t _ content heq
  · split at h <;> simp at h

/-- A matched payload consists of characters of the input text. -/
theorem pyMatch_content_chars (t sid content : String)
    (h : pyMatchSessionMsg t = some (sid, content)) :
    ∀ c ∈ content.data, c ∈ t.data := by
  unfold pyMatchSessionMsg at h
  split at h
  · exact absurd h (by simp)
  · split at h
    · exact absurd h (by simp)
    · rename_i c0 tail heq
      split at h
      · split at h
        · simp only [Option.some.injEq, Prod.mk.injEq] at h
          obtain ⟨_, h2⟩ := h
          intro c hc
          rw [← h2] at hc
          have hc1 : c ∈ tail := (List.dropWhile_sublist isPySpace).mem hc
          have hc2 : c ∈ c0 :: tail := List.mem_cons_of_mem c0 hc1
          rw [← heq] at hc2
          exact (List.dropWhile_sublist isWordChar).mem hc2
        · split at h
          · rename_i htl
            simp only [Option.some.injEq, Prod.mk.injEq] at h
            obtain ⟨_, h2⟩ := h
            intro c hc
            rw [← h2] at hc
            have hceq : c = tail.getLastD ' ' := by simpa using hc
            have hmem : tail.getLastD ' ' ∈ tail := by
              rw [List.getLastD_eq_getLast?, List.getLast?_eq_getLast tail htl]
              exact List.getLast_mem htl
            rw [hceq]
            have hc2 : tail.getLastD ' ' ∈ c0 :: tail := List.mem_cons_of_mem c0 hmem
            rw [← heq] at hc2
            exact (List.dropWhile_sublist isWordChar).mem hc2
          · exact absurd h (by simp)
      · exact absurd h (by simp)

/-- The parsed payload consists of characters of the input text. -/
theorem parse_payload_chars (t : String) (os : Option String) (p : String) (b : Bool)
    (h : parse_message_id t = (os, p, b)) :
    ∀ c ∈ p.data, c ∈ t.data := by
  unfold parse_message_id at h
  split at h
  · rename_i sid content heq
    split at h
    · simp only [Prod.mk.injEq, Option.some.injEq] at h
      obtain ⟨_, h2, _⟩ := h
      intro c hc
      rw [← h2] at hc
      have : c ∈ content.data := (List.tail_sublist content.data).mem hc
      exact pyMatch_content_chars t sid content heq c this
    · simp only [Prod.mk.injEq, Option.some.injEq] at h
      obtain ⟨_, h2, _⟩ := h
      intro c hc
      rw [← h2] at hc
      exact pyMatch_content_chars t sid content heq c hc
  · split at h
    · simp only [Prod.mk.injEq] at h
      obtain ⟨_, h2, _⟩ := h
      intro c hc
      rw [← h2] at hc
      exact (List.tail_sublist t.data).mem hc
    · simp only [Prod.mk.injEq] at h
      obtain ⟨_, h2, _⟩ := h
      intro c hc
      rw [← h2] at hc
      exact hc

/-- The capture helper injects no keystrokes. -/
theorem filterTargets_sendCapture (sessionName : String) (env : MuxEnv) :
    List.filterMap sendKeysTargetFn (sendCapture sessionName env).1 = [] := by
  cases h : env.capturePaneRes <;> simp [sendCapture, h, sendKeysTargetFn]

/-- The capture helper injects no keystrokes (pair form). -/
theorem filterKeys_sendCapture (sessionName : String) (env : MuxEnv) :
    List.filterMap sendKeysEvFn (sendCapture sessionName env).1 = [] := by
  cases h : env.capturePaneRes <;> simp [sendCapture, h, sendKeysEvFn]

/-- The bypass capture injects no keystrokes (pair form). -/
theorem filterKeys_bypassCapture (sessionName : String) (env : MuxEnv) :
    List.filterMap sendKeysEvFn (bypassCaptureEvs sessionName env) = [] := by
  cases h : env.capturePaneRes with
  | ok out e =>
    by_cases ho : pyStrip out = "" <;>
      simp [bypassCaptureEvs, h, sendKeysEvFn, ho]
  | err o e => simp [bypassCaptureEvs, h, sendKeysEvFn]
  | exn m => simp [bypassCaptureEvs, h, sendKeysEvFn]

/-- Every keystroke of the delivery engine targets the resolved session
and injects either the sanitized payload with the reply-format hint or
the Enter control sequence. -/
theorem sendKeysEvents_deliver (sessionName response : String) (bypass : Bool)
    (state : ListenerState) (env : MuxEnv) :
    ∀ pr ∈ sendKeysEvents (deliver sessionName response bypass state env).trace,
      pr.1 = sessionName ∧
        (pr.2 = sanitize response bypass ++ hintSuffix ∨ pr.2 = "C-m") := by
  intro pr hpr
  unfold sendKeysEvents at hpr
  unfold deliver at hpr
  split at hpr
  · simp [sendKeysEvFn] at hpr
    subst hpr
    exact ⟨rfl, Or.inl rfl⟩
  · simp [sendKeysEvFn] at hpr
    subst hpr
    exact ⟨rfl, Or.inl rfl⟩
  · split at hpr
    · simp [sendKeysEvFn] at hpr
      rcases hpr with rfl | rfl
      · exact ⟨rfl, Or.inl rfl⟩
      · exact ⟨rfl, Or.inr rfl⟩
    · simp [sendKeysEvFn] at hpr
      rcases hpr with rfl | rfl
      · exact ⟨rfl, Or.inl rfl⟩
      · exact ⟨rfl, Or.inr rfl⟩
    · split at hpr
      · simp only [List.filterMap_append, filterKeys_bypassCapture,
          List.append_nil] at hpr
        simp [sendKeysEvFn] at hpr
        rcases hpr with rfl | rfl
        · exact ⟨rfl, Or.inl rfl⟩
        · exact ⟨rfl, Or.inr rfl⟩
      · split at hpr
        · rcases hc : (sendCapture sessionName env).2 with _ | m <;>
            rw [hc] at hpr <;>
            (simp only [List.filterMap_append, List.filterMap_cons,
              filterKeys_sendCapture] at hpr
             simp [sendKeysEvFn] at hpr
             rcases hpr with rfl | rfl
             · exact ⟨rfl, Or.inl rfl⟩
             · exact ⟨rfl, Or.inr rfl⟩)
        · simp [sendKeysEvFn] at hpr
          rcases hpr with rfl | rfl
          · exact ⟨rfl, Or.inl rfl⟩
          · exact ⟨rfl, Or.inr rfl⟩

/-- Every keystroke after session resolution targets the resolved
session and injects either the sanitized payload with the hint or
Enter. -/
theorem sendKeysEvents_resolve (sessionName response : String) (bypass : Bool)
    (state : ListenerState) (env : MuxEnv) :
    ∀ pr ∈ sendKeysEvents
      (resolveAndDeliver sessionName response bypass state env).trace,
      pr.1 = sessionName ∧
        (pr.2 = sanitize response bypass ++ hintSuffix ∨ pr.2 = "C-m") := by
  intro pr hpr
  unfold sendKeysEvents at hpr
  unfold resolveAndDeliver at hpr
  split at hpr
  · simp [sendKeysEvFn] at hpr
  · simp [sendKeysEvFn] at hpr
  · split at hpr
    · simp only [List.filterMap_cons] at hpr
      rw [show sendKeysEvFn (Eff.tmux TmuxCall.listSessions) = none from rfl] at hpr
      exact sendKeysEvents_deliver sessionName response bypass state env pr hpr
    · simp [sendKeysEvFn] at hpr

/-- Every keystroke of the routing pipeline injects either the
sanitized parsed payload with the hint or Enter. -/
theorem sendKeysEvents_route (t : String) (state : ListenerState) (env : MuxEnv) :
    ∀ pr ∈ sendKeysEvents (routeMessage t state env).trace,
      pr.2 = sanitize (parse_message_id t).2.1 (parse_message_id t).2.2 ++ hintSuffix ∨
        pr.2 = "C-m" := by
  intro pr hpr
  rcases hp : parse_message_id t with ⟨os, p, b⟩
  cases os with
  | some s =>
    have hroute : routeMessage t state env = resolveAndDeliver s p b state env := by
      unfold routeMessage
      rw [hp]
    rw [hroute] at hpr
    exact (sendKeysEvents_resolve s p b state env pr hpr).2
  | none =>
    cases hls : state.last_active_session with
    | none =>
      have hroute : routeMessage t state env =
          ⟨[Eff.telegram "No active session. Reply with: session-name: message"],
           state, none⟩ := by
        unfold routeMessage
        rw [hp, hls]
      rw [hroute] at hpr
      simp [sendKeysEvents, sendKeysEvFn] at hpr
    | some s =>
      have hroute : routeMessage t state env =
          (if s = "" then
            ⟨[Eff.telegram "No active session. Reply with: session-name: message"],
             state, none⟩
          else resolveAndDeliver s p b state env) := by
        unfold routeMessage
        rw [hp, hls]
      rw [hroute] at hpr
      by_cases hs : s = ""
      · rw [if_pos hs] at hpr
        simp [sendKeysEvents, sendKeysEvFn] at hpr
      · rw [if_neg hs] at hpr
        exact (sendKeysEvents_resolve s p b state env pr hpr).2

/-- The bypass capture injects no keystrokes. -/
theorem filterTargets_bypassCapture (sessionName : String) (env : MuxEnv) :
    List.filterMap sendKeysTargetFn (bypassCaptureEvs sessionName env) = [] := by
  cases h : env.capturePaneRes with
  | ok out e =>
    by_cases ho : pyStrip out = "" <;>
      simp [bypassCaptureEvs, h, sendKeysTargetFn, ho]
  | err o e => simp [bypassCaptureEvs, h, sendKeysTargetFn]
  | exn m => simp [bypassCaptureEvs, h, sendKeysTargetFn]

/-- Every keystroke of the delivery engine targets the resolved
session. -/
theorem sendKeysTargets_deliver (sessionName response : String) (bypass : Bool)
    (state : ListenerState) (env : MuxEnv) :
    ∀ x ∈ sendKeysTargets (deliver sessionName response bypass state env).trace,
      x = sessionName := by
  intro x hx
  unfold sendKeysTargets at hx
  unfold deliver at hx
  split at hx
  · simp [sendKeysTargetFn] at hx
    exact hx
  · simp [sendKeysTargetFn] at hx
    exact hx
  · split at hx
    · simp [sendKeysTargetFn] at hx
      tauto
    · simp [sendKeysTargetFn] at hx
      tauto
    · split at hx
      · simp only [List.filterMap_append, filterTargets_bypassCapture,
          List.append_nil] at hx
        simp [sendKeysTargetFn] at hx
        tauto
      · split at hx
        · rcases hc : (sendCapture sessionName env).2 with _ | m <;>
            rw [hc] at hx <;>
            (simp only [List.filterMap_append, List.filterMap_cons,
              filterTargets_sendCapture] at hx
             simp [sendKeysTargetFn] at hx
             tauto)
        · simp [sendKeysTargetFn] at hx
          tauto

/-- Every keystroke after session resolution targets the resolved
session. -/
theorem sendKeysTargets_resolve (sessionName response : String) (bypass : Bool)
    (state : ListenerState) (env : MuxEnv) :
    ∀ x ∈ sendKeysTargets
      (resolveAndDeliver sessionName response bypass state env).trace,
      x = sessionName := by
  intro x hx
  unfold sendKeysTargets at hx
  unfold resolveAndDeliver at hx
  split at hx
  · simp [sendKeysTargetFn] at hx
  · simp [sendKeysTargetFn] at hx
  · split at hx
    · simp only [List.filterMap_cons] at hx
      rw [show sendKeysTargetFn (Eff.tmux TmuxCall.listSessions) = none from rfl] at hx
      exact sendKeysTargets_deliver sessionName response bypass state env x hx
    · simp [sendKeysTargetFn] at hx

/-- Every keystroke of the routing pipeline targets either the
explicitly parsed session or the stored last active session. -/
theorem sendKeysTargets_route (t : String) (state : ListenerState) (env : MuxEnv) :
    ∀ x ∈ sendKeysTargets (routeMessage t state env).trace,
      (∃ p b, parse_message_id t = (some x, p, b)) ∨
        state.last_active_session = some x := by
  intro x hx
  rcases hp : parse_message_id t with ⟨os, p, b⟩
  cases os with
  | some s =>
    have hroute : routeMessage t state env = resolveAndDeliver s p b state env := by
      unfold routeMessage
      rw [hp]
    rw [hroute] at hx
    have := sendKeysTargets_resolve s p b state env x hx
    subst this
    exact Or.inl ⟨p, b, rfl⟩
  | none =>
    cases hls : state.last_active_session with
    | none =>
      have hroute : routeMessage t state env =
          ⟨[Eff.telegram "No active session. Reply with: session-name: message"],
           state, none⟩ := by
        unfold routeMessage
        rw [hp, hls]
      rw [hroute] at hx
      simp [sendKeysTargets, sendKeysTargetFn] at hx
    | some s =>
      have hroute : routeMessage t state env =
          (if s = "" then
            ⟨[Eff.telegram "No active session. Reply with: session-name: message"],
             state, none⟩
          else resolveAndDeliver s p b state env) := by
        unfold routeMessage
        rw [hp, hls]
      rw [hroute] at hx
      by_cases hs : s = ""
      · rw [if_pos hs] at hx
        simp [sendKeysTargets, sendKeysTargetFn] at hx
      · rw [if_neg hs] at hx
        have := sendKeysTargets_resolve s p b state env x hx
        subst this
        exact Or.inr rfl

/-- C8: `process_update` trims and lowercases the whole message text
before parsing and delivery: every keystroke injection targets a
session name without uppercase ASCII letters (given that the stored
last active session, itself only ever set from lowercased text, has
none) — so a session whose name contains an uppercase letter never
receives injected keystrokes — and every injected keystroke text is
either the Enter control sequence or the sanitized payload (with the
reply-format hint) of the parse of the trimmed, lowercased text, a
payload that itself contains no uppercase ASCII letters: payload
character case is not preserved. -/
theorem delivery_uses_lowercased_text (u : Update) (msg : Msg) (chatId : String)
    (userId : Option String) (state : ListenerState) (env : MuxEnv)
    (hmsg : u.message = some msg)
    (hstate : ∀ v, state.last_active_session = some v → noUpperB v = true) :
    (∀ x ∈ sendKeysTargets (process_update u chatId userId state env).trace,
      noUpperB x = true) ∧
    (∀ S : String, noUpperB S = false →
      S ∉ sendKeysTargets (process_update u chatId userId state env).trace) ∧
    (∀ pr ∈ sendKeysEvents (process_update u chatId userId state env).trace,
      pr.2 = sanitize (parse_message_id (pyLower (pyStrip msg.text))).2.1
        (parse_message_id (pyLower (pyStrip msg.text))).2.2 ++ hintSuffix ∨
      pr.2 = "C-m") ∧
    noUpperB (parse_message_id (pyLower (pyStrip msg.text))).2.1 = true := by
  have hred : process_update u chatId userId state env =
      (if msg.chatId = chatId then
        (if userOk userId msg.fromId = true then
          handleCommands (pyLower (pyStrip msg.text)) state env
        else ⟨[], state, none⟩)
      else ⟨[], state, none⟩) := by
    unfold process_update
    rw [hmsg]
  have hpay : noUpperB (parse_message_id (pyLower (pyStrip msg.text))).2.1 = true :=
    noUpperB_of_subset _ _ (noUpperB_pyLower (pyStrip msg.text))
      (parse_payload_chars (pyLower (pyStrip msg.text)) _ _ _ rfl)
  have core : (∀ x ∈ sendKeysTargets (process_update u chatId userId state env).trace,
      noUpperB x = true) ∧
      (∀ pr ∈ sendKeysEvents (process_update u chatId userId state env).trace,
        pr.2 = sanitize (parse_message_id (pyLower (pyStrip msg.text))).2.1
          (parse_message_id (pyLower (pyStrip msg.text))).2.2 ++ hintSuffix ∨
        pr.2 = "C-m") := by
    rw [hred]
    by_cases hc : msg.chatId = chatId
    · rw [if_pos hc]
      by_cases hu : userOk userId msg.fromId = true
      · rw [if_pos hu]
        by_cases h1 : pyLower (pyStrip msg.text) = "capture"
        · cases hls : state.last_active_session with
          | none =>
            have hcmd : handleCommands (pyLower (pyStrip msg.text)) state env =
                ⟨[Eff.telegram "No active session. Send a message first."],
                 state, none⟩ := by
              unfold handleCommands
              rw [if_pos h1, hls]
            rw [hcmd]
            constructor
            · intro x hx
              simp [sendKeysTargets, sendKeysTargetFn] at hx
            · intro pr hpr
              simp [sendKeysEvents, sendKeysEvFn] at hpr
          | some s =>
            by_cases hs : s = ""
            · have hcmd : handleCommands (pyLower (pyStrip msg.text)) state env =
                  ⟨[Eff.telegram "No active session. Send a message first."],
                   state, none⟩ := by
                unfold handleCommands
                rw [if_pos h1, hls]
                show (if s = "" then
                    (⟨[Eff.telegram "No active session. Send a message first."],
                      state, none⟩ : ProcResult)
                  else ⟨(sendCapture s env).1, state, (sendCapture s env).2⟩) = _
                rw [if_pos hs]
              rw [hcmd]
              constructor
              · intro x hx
                simp [sendKeysTargets, sendKeysTargetFn] at hx
              · intro pr hpr
                simp [sendKeysEvents, sendKeysEvFn] at hpr
            · have hcmd : handleCommands (pyLower (pyStrip msg.text)) state env =
                  ⟨(sendCapture s env).1, state, (sendCapture s env).2⟩ := by
                unfold handleCommands
                rw [if_pos h1, hls]
                show (if s = "" then
                    (⟨[Eff.telegram "No active session. Send a message first."],
                      state, none⟩ : ProcResult)
                  else ⟨(sendCapture s env).1, state, (sendCapture s env).2⟩) = _
                rw [if_neg hs]
              rw [hcmd]
              constructor
              · intro x hx
                unfold sendKeysTargets at hx
                rw [show (⟨(sendCapture s env).1, state, (sendCapture s env).2⟩ :
                    ProcResult).trace = (sendCapture s env).1 from rfl] at hx
                rw [filterTargets_sendCapture] at hx
                exact absurd hx (List.not_mem_nil x)
              · intro pr hpr
                unfold sendKeysEvents at hpr
                rw [show (⟨(sendCapture s env).1, state, (sendCapture s env).2⟩ :
                    ProcResult).trace = (sendCapture s env).1 from rfl] at hpr
                rw [filterKeys_sendCapture] at hpr
                exact absurd hpr (List.not_mem_nil pr)
        · by_cases h2 : pyLower (pyStrip msg.text) = "capture on"
          · have hcmd : handleCommands (pyLower (pyStrip msg.text)) state env =
                ⟨[Eff.saveState { state with auto_capture := true },
                  Eff.telegram "Auto-capture ON. Will capture after each message."],
                 { state with auto_capture := true }, none⟩ := by
              unfold handleCommands
              rw [if_neg h1, if_pos h2]
            rw [hcmd]
            constructor
            · intro x hx
              simp [sendKeysTargets, sendKeysTargetFn] at hx
            · intro pr hpr
              simp [sendKeysEvents, sendKeysEvFn] at hpr
          · by_cases h3 : pyLower (pyStrip msg.text) = "capture off"
            · have hcmd : handleCommands (pyLower (pyStrip msg.text)) state env =
                  ⟨[Eff.saveState { state with auto_capture := false },
                    Eff.telegram "Auto-capture OFF."],
                   { state with auto_capture := false }, none⟩ := by
                unfold handleCommands
                rw [if_neg h1, if_neg h2, if_pos h3]
              rw [hcmd]
              constructor
              · intro x hx
                simp [sendKeysTargets, sendKeysTargetFn] at hx
              · intro pr hpr
                simp [sendKeysEvents, sendKeysEvFn] at hpr
            · by_cases h4 : pyLower (pyStrip msg.text) = "capture status"
              · have hcmd : handleCommands (pyLower (pyStrip msg.text)) state env =
                    ⟨[Eff.telegram ("Auto-capture: " ++
                      (if state.auto_capture then "ON" else "OFF"))], state, none⟩ := by
                  unfold handleCommands
                  rw [if_neg h1, if_neg h2, if_neg h3, if_pos h4]
                rw [hcmd]
                constructor
                · intro x hx
                  simp [sendKeysTargets, sendKeysTargetFn] at hx
                · intro pr hpr
                  simp [sendKeysEvents, sendKeysEvFn] at hpr
              · have hcmd : handleCommands (pyLower (pyStrip msg.text)) state env =
                    routeMessage (pyLower (pyStrip msg.text)) state env := by
                  unfold handleCommands
                  rw [if_neg h1, if_neg h2, if_neg h3, if_neg h4]
                rw [hcmd]
                constructor
                · intro x hx
                  rcases sendKeysTargets_route _ state env x hx with ⟨p, b, hp⟩ | hls
                  · exact noUpperB_of_subset x (pyLower (pyStrip msg.text))
                      (noUpperB_pyLower (pyStrip msg.text))
                      (parse_session_chars _ x p b hp)
                  · exact hstate x hls
                · intro pr hpr
                  exact sendKeysEvents_route _ state env pr hpr
      · rw [if_neg hu]
        constructor
        · intro x hx
          simp [sendKeysTargets, sendKeysTargetFn] at hx
        · intro pr hpr
          simp [sendKeysEvents, sendKeysEvFn] at hpr
    · rw [if_neg hc]
      constructor
      · intro x hx
        simp [sendKeysTargets, sendKeysTargetFn] at hx
      · intro pr hpr
        simp [sendKeysEvents, sendKeysEvFn] at hpr
  obtain ⟨c1, c3⟩ := core
  refine ⟨c1, ?_, c3, hpay⟩
  intro S hS hmem
  rw [c1 S hmem] at hS
  exact Bool.noConfusion hS

/-- C8 witness: a concrete authorized update whose text carries
uppercase letters — every injected keystroke of the run targets the
lowercased session name, the uppercase-named session is not a target,
every injected text is the sanitized lowercased payload with the hint
or Enter, and the parsed payload has no uppercase letters. -/
theorem delivery_uses_lowercased_text_witness :
    (∀ x ∈ sendKeysTargets (process_update ⟨1, some ⟨"Build: Hi", "7", "42"⟩⟩ "42" none
      ⟨0, none, false⟩ ⟨CallRes.ok "build\nBuild" "", CallRes.ok "" "", CallRes.ok "" "",
        CallRes.ok "" ""⟩).trace, noUpperB x = true) ∧
    (∀ S : String, noUpperB S = false →
      S ∉ sendKeysTargets (process_update ⟨1, some ⟨"Build: Hi", "7", "42"⟩⟩ "42" none
        ⟨0, none, false⟩ ⟨CallRes.ok "build\nBuild" "", CallRes.ok "" "", CallRes.ok "" "",
          CallRes.ok "" ""⟩).trace) ∧
    (∀ pr ∈ sendKeysEvents (process_update ⟨1, some ⟨"Build: Hi", "7", "42"⟩⟩ "42" none
      ⟨0, none, false⟩ ⟨CallRes.ok "build\nBuild" "", CallRes.ok "" "", CallRes.ok "" "",
        CallRes.ok "" ""⟩).trace,
      pr.2 = sanitize (parse_message_id (pyLower (pyStrip "Build: Hi"))).2.1
        (parse_message_id (pyLower (pyStrip "Build: Hi"))).2.2 ++ hintSuffix ∨
      pr.2 = "C-m") ∧
    noUpperB (parse_message_id (pyLower (pyStrip "Build: Hi"))).2.1 = true :=
  delivery_uses_lowercased_text ⟨1, some ⟨"Build: Hi", "7", "42"⟩⟩
    ⟨"Build: Hi", "7", "42"⟩ "42" none ⟨0, none, false⟩
    ⟨CallRes.ok "build\nBuild" "", CallRes.ok "" "", CallRes.ok "" "", CallRes.ok "" ""⟩
    rfl (fun _ h => Option.noConfusion h)

end Telemux
